import Mathlib

/-!
Shallow embedding of `src/pinn/data/matlab.py` (class `MatlabSample`), the
BIOQIC MATLAB sample loader: complex wave-field construction from
magnitude/phase pairs, coordinate metadata, mask/elastogram enrichment and
the MATLAB-file loading fallback logic.

Numpy arrays are embedded as a shape (list of axis sizes) together with a
total function from multi-indices to values; xarray `DataArray`s carry in
addition a list of dimension names and per-dimension coordinate values, and
an xarray `Dataset` is an association list from variable names to arrays
plus the set of names promoted to coordinates by `assign_coords`.
File input (scipy, h5py, nibabel) is passed in as explicit data so the
loading logic becomes a pure function of the file contents.
-/

set_option autoImplicit false

/-- A numpy n-dimensional array: axis sizes plus a total map from
multi-indices (one entry per axis) to values. -/
structure NDArray (α : Type) where
  shape : List Nat
  data : List Nat → α

/-- Elementwise map, as in `np.exp` applied to a whole array. -/
def npMap {α β : Type} (f : α → β) (a : NDArray α) : NDArray β :=
  ⟨a.shape, fun i => f (a.data i)⟩

/-- Embedding of `np.exp(1j * phase)`: elementwise `exp(I * θ)` on a real array. -/
noncomputable def npExpI (p : NDArray ℝ) : NDArray ℂ :=
  npMap (fun (θ : ℝ) => Complex.exp (Complex.I * (θ : ℂ))) p

/-- Embedding of `np.multiply` of a real array by a complex array, in the
equal-shape case exercised by the loader (the raw magnitude and phase come
from the same acquisition and must have identical shape; on a shape
mismatch numpy fails, modelled by `none`). -/
noncomputable def npMultiplyRC (a : NDArray ℝ) (b : NDArray ℂ) : Option (NDArray ℂ) :=
  if a.shape = b.shape then some ⟨a.shape, fun i => (a.data i : ℂ) * b.data i⟩ else none

/-- The complex wave construction of `load_mat` (line 37):
`np.multiply(magnitude, np.exp(1j * phase))`. -/
noncomputable def constructWave (magnitude phase : NDArray ℝ) : Option (NDArray ℂ) :=
  npMultiplyRC magnitude (npExpI phase)

/-- Embedding of `np.expand_dims(a, axis=0)`: a new leading axis of size 1. -/
def expandDims0 {α : Type} (a : NDArray α) : NDArray α :=
  ⟨1 :: a.shape, fun idx => a.data idx.tail⟩

/-- Reversal of the axis order of an array (the relation between the MATLAB
axis convention and the h5py axis convention for the same on-disk data). -/
def NDArray.revAxes {α : Type} (a : NDArray α) : NDArray α :=
  ⟨a.shape.reverse, fun idx => a.data idx.reverse⟩

/-- Coordinate values attached to one dimension: numeric (resolution-scaled
positions, frequencies, timesteps) or string labels (the component axis). -/
inductive CoordVals where
  | nums (vs : List ℝ)
  | strs (vs : List String)

/-- Length of a coordinate value list. -/
def coordLen : CoordVals → Nat
  | .nums vs => vs.length
  | .strs vs => vs.length

/-- An xarray `DataArray`: named dimensions, axis sizes, coordinates and data. -/
structure DataArray where
  dims : List String
  shape : List Nat
  coords : List (String × CoordVals)
  data : List Nat → ℂ

/-- Size of the dimension named `d` (0 when absent). -/
def dimSize (dims : List String) (shape : List Nat) (d : String) : Nat :=
  shape.getD (dims.indexOf d) 0

/-- Lookup of a coordinate entry by dimension name. -/
def coordOf (coords : List (String × CoordVals)) (d : String) : Option CoordVals :=
  match coords with
  | [] => none
  | (k, v) :: rest => if k = d then some v else coordOf rest d

/-- Embedding of the `xr.DataArray(array, dims=dims, coords=coords)`
constructor: it validates that there is one dimension name per axis and
that every coordinate list has the length of its dimension, and fails
(raises, modelled by `none`) otherwise. -/
def mkDataArray (a : NDArray ℂ) (dims : List String) (coords : List (String × CoordVals)) :
    Option DataArray :=
  if dims.length = a.shape.length ∧
      ∀ e ∈ coords, e.1 ∈ dims ∧ coordLen e.2 = dimSize dims a.shape e.1 then
    some ⟨dims, a.shape, coords, a.data⟩
  else
    none

/-- Embedding of `DataArray.transpose(d1, ..., dn)` for a permutation
`newDims` of the dimension names: dims, shape and data are permuted and the
coordinates are unchanged. -/
def DataArray.transpose (a : DataArray) (newDims : List String) : DataArray :=
  { dims := newDims
    shape := newDims.map (dimSize a.dims a.shape)
    coords := a.coords
    data := fun idx => a.data (a.dims.map (fun d => idx.getD (newDims.indexOf d) 0)) }

/-- All multi-indices of a given shape, in lexicographic order. -/
def indexTuples : List Nat → List (List Nat)
  | [] => [[]]
  | n :: rest => (List.range n).flatMap (fun i => (indexTuples rest).map (i :: ·))

/-- Interleave a reduced index (over the kept dimensions) with an index over
the removed dimensions, following the original dimension order. -/
def mergeIdx (dims removed : List String) (kept rem : List Nat) : List Nat :=
  match dims with
  | [] => []
  | d :: ds =>
    if removed.contains d then rem.headD 0 :: mergeIdx ds removed kept rem.tail
    else kept.headD 0 :: mergeIdx ds removed kept.tail rem

/-- Embedding of `DataArray.mean(rdims)`: the reduced dimensions and their
coordinates are dropped (keeping the original order of the others) and each
remaining cell holds the arithmetic mean over the removed axes. -/
noncomputable def DataArray.mean (a : DataArray) (rdims : List String) : DataArray :=
  { dims := a.dims.filter (fun d => !(rdims.contains d))
    shape := (a.dims.filter (fun d => !(rdims.contains d))).map (dimSize a.dims a.shape)
    coords := a.coords.filter (fun e => !(rdims.contains e.1))
    data := fun idx =>
      let tuples := indexTuples
        ((a.dims.filter (fun d => rdims.contains d)).map (dimSize a.dims a.shape))
      (tuples.map (fun rem => a.data (mergeIdx a.dims rdims idx rem))).sum / tuples.length }

/-- An xarray `Dataset`: named data variables plus the names promoted to
coordinates by `assign_coords`. -/
structure Dataset where
  vars : List (String × DataArray)
  coordNames : List String

/-- Assignment `ds[k] = a`: replace an existing entry in place, else append. -/
def setEntry : List (String × DataArray) → String → DataArray → List (String × DataArray)
  | [], k, a => [(k, a)]
  | (k₀, a₀) :: rest, k, a =>
    if k₀ = k then (k, a) :: rest else (k₀, a₀) :: setEntry rest k a

/-- Lookup `ds.k` / `ds[k]` of a data variable by name. -/
def getEntry : List (String × DataArray) → String → Option DataArray
  | [], _ => none
  | (k₀, a₀) :: rest, k => if k₀ = k then some a₀ else getEntry rest k

/-- Dataset variable assignment. -/
def Dataset.setVar (ds : Dataset) (k : String) (a : DataArray) : Dataset :=
  { ds with vars := setEntry ds.vars k a }

/-- Dataset variable access. -/
def Dataset.getVar (ds : Dataset) (k : String) : Option DataArray :=
  getEntry ds.vars k

/-- Embedding of `assign_coords(k=ds[k])`: the named variable is promoted to
a coordinate of the dataset (recorded by name; repeated promotion is a no-op). -/
def Dataset.assignCoord (ds : Dataset) (k : String) : Dataset :=
  { ds with coordNames := if ds.coordNames.contains k then ds.coordNames else ds.coordNames ++ [k] }

/-- Contents of a BIOQIC `.mat` file as used by `load_mat`: the raw
real-valued magnitude and phase volumes (`data["magnitude"]`, `data["phase"]`). -/
structure MatData where
  magnitude : NDArray ℝ
  phase : NDArray ℝ

/-- A Python exception as distinguished by `_load_mat_file`:
`NotImplementedError` (the scipy signal for a MATLAB v7.3 file) versus
anything else. -/
inductive PyExc where
  | notImplementedError
  | other (msg : String)
deriving DecidableEq

/-- The outcome of a failed `_load_mat_file`: the message printed to stderr
(if any) and the original exception, which propagates to the caller. -/
structure LoadErr where
  reported : Option String
  exc : PyExc

/-- Embedding of `MatlabSample._load_mat_file`. The results of the two
reader calls (`scipy.io.loadmat` and `h5py.File`) are passed in as data.
The scipy reader is tried first; on success the data is returned with the
axis-order flag `rev_axes = true`.  A `NotImplementedError` from scipy
selects the h5py fallback (flag `false`); an exception raised by the
fallback itself occurs inside the handler and therefore propagates without
the diagnostic.  Any other scipy exception is reported with the failing
filename on stderr and re-raised. -/
def loadMatFileFn (mat_file : String) (scipyRes h5Res : Except PyExc MatData) :
    Except LoadErr (MatData × Bool) :=
  match scipyRes with
  | .ok d => .ok (d, true)
  | .error .notImplementedError =>
    match h5Res with
    | .ok d => .ok (d, false)
    | .error e => .error ⟨none, e⟩
  | .error e => .error ⟨some ("Failed to load " ++ mat_file), e⟩

/-- Modelled from the spec: `as_xarray(a, like)` (from `pinn.utils`, which
is not under `src/`) aligns a raw array onto the coordinate system of the
reference array `like` by shape-matching rather than by trusting the raw
data axis order: the data is used as-is when its shape already equals the
reference shape, and its axis order is reversed when the reversed shape
matches (the documented disagreement between the acquisition and mask axis
conventions); the result always carries the dims and coords of `like`.
Alignment fails when neither shape matches. -/
def as_xarray (a : NDArray ℂ) (like : DataArray) : Option DataArray :=
  if a.shape = like.shape then
    some ⟨like.dims, like.shape, like.coords, a.data⟩
  else if a.shape.reverse = like.shape then
    some ⟨like.dims, like.shape, like.coords, a.revAxes.data⟩
  else
    none

/-- The attribute state of a `MatlabSample` object.  `arrays` and the four
file-path attributes may be unset (`none` models a missing attribute, whose
access raises `AttributeError`).  `file_path_mask` and `file_path_filled`
are read by the mask branches of `segment_regions` but no method ever
assigns them. -/
structure SampleState where
  mat_file : String
  mask_file : Option String
  bin_mask_file : Option String
  freq : ℝ
  resolution : List ℝ
  arrays : Option Dataset
  storage_mod_file : Option String
  loss_mod_file : Option String
  file_path_mask : Option String
  file_path_filled : Option String

/-- Embedding of `MatlabSample.__init__(filepath, frequency, resolution)`. -/
def initState (filepath : String) (frequency : ℝ) (resolution : List ℝ) : SampleState :=
  { mat_file := filepath
    mask_file := none
    bin_mask_file := none
    freq := frequency
    resolution := resolution
    arrays := none
    storage_mod_file := none
    loss_mod_file := none
    file_path_mask := none
    file_path_filled := none }

/-- The constant `wave_var` property. -/
def wave_var : String := "u_ft"

/-- The canonical output dimension order of the wave array. -/
def canonicalDims : List String :=
  ["timesteps", "frequency", "x", "y", "z", "component"]

/-- The dimension names of `add_metadata`, in the on-file axis order. -/
def mdDims : List String :=
  ["x", "y", "z", "timesteps", "component", "frequency"]

/-- The coordinate dictionary of `add_metadata`: the single acquisition
frequency, spatial positions `np.arange(shape[i]) * resolution[i]`, the
component labels and the timestep indices. -/
def mdCoords (freq r0 r1 r2 : ℝ) (shape : List Nat) : List (String × CoordVals) :=
  [("frequency", CoordVals.nums [freq]),
   ("x", CoordVals.nums ((List.range (shape.getD 0 0)).map (fun i => (i : ℝ) * r0))),
   ("y", CoordVals.nums ((List.range (shape.getD 1 0)).map (fun i => (i : ℝ) * r1))),
   ("z", CoordVals.nums ((List.range (shape.getD 2 0)).map (fun i => (i : ℝ) * r2))),
   ("component", CoordVals.strs ["x", "y", "z"]),
   ("timesteps", CoordVals.nums ((List.range (shape.getD 3 0)).map (fun i => (i : ℝ))))]

/-- Embedding of `MatlabSample.add_metadata(array)`: dimension names are
assigned in the on-file order `x, y, z, timesteps, component, frequency`,
coordinates are attached (an out-of-range resolution access raises,
modelled by `none`), and the result is transposed to the canonical order. -/
def addMetadata (freq : ℝ) (resolution : List ℝ) (array : NDArray ℂ) : Option DataArray := do
  let r0 ← resolution.get? 0
  let r1 ← resolution.get? 1
  let r2 ← resolution.get? 2
  let arr ← mkDataArray array mdDims (mdCoords freq r0 r1 r2 array.shape)
  return arr.transpose canonicalDims

/-- Embedding of `MatlabSample.load_mat()`, with the result of
`_load_mat_file` passed in as `(data, rev_axes)`.  The source binds
`rev_axes` but never uses it: the wave is built from the data as loaded,
given metadata, and stored as the single variable of a fresh dataset. -/
noncomputable def load_mat (data : MatData) (rev_axes : Bool) (s : SampleState) :
    Option SampleState := do
  let wave ← constructWave data.magnitude data.phase
  let w ← addMetadata s.freq s.resolution wave
  return { s with arrays := some ⟨[("wave", w)], []⟩ }

/-- Stated from the claim, for comparison with `load_mat`: the same pipeline
but with the axis reversal demanded by the on-disk format actually applied
to the raw magnitude and phase before the complex construction.  The claim
does not pin down which value of the `rev_axes` flag marks the format whose
axes need reversing, so the polarity `pol` is a parameter: the reversal is
applied exactly when `rev_axes = pol`. -/
noncomputable def load_mat_claim (pol : Bool) (data : MatData) (rev_axes : Bool)
    (s : SampleState) : Option SampleState := do
  let m := if rev_axes = pol then data.magnitude.revAxes else data.magnitude
  let p := if rev_axes = pol then data.phase.revAxes else data.phase
  let wave ← constructWave m p
  let w ← addMetadata s.freq s.resolution wave
  return { s with arrays := some ⟨[("wave", w)], []⟩ }

/-- The first conditional block of `segment_regions` (the `mask_file`
branch): when `mask_file` is set, read the `file_path_mask` attribute (which
`__init__` never sets), align the raw mask data onto the reference array `u`
with `as_xarray`, store it as `spatial_region` and promote it to a dataset
coordinate; when `mask_file` is `None` the block is skipped. -/
noncomputable def maskBranch (maskData : String → NDArray ℂ) (s : SampleState)
    (u : DataArray) (arrays : Dataset) : Option Dataset :=
  match s.mask_file with
  | none => some arrays
  | some _ => do
    let path ← s.file_path_mask
    let m ← as_xarray (maskData path) u
    let ds := arrays.setVar "spatial_region" m
    some (ds.assignCoord "spatial_region")

/-- The second conditional block of `segment_regions` (the `bin_mask_file`
branch): analogous, reading the never-set `file_path_filled` attribute,
storing `binary_region`, then accessing `spatial_region` (which must exist)
and promoting it to a dataset coordinate. -/
noncomputable def binBranch (fillData : String → NDArray ℂ) (s : SampleState)
    (u : DataArray) (arrays₁ : Dataset) : Option Dataset :=
  match s.bin_mask_file with
  | none => some arrays₁
  | some _ => do
    let path ← s.file_path_filled
    let m ← as_xarray (fillData path) u
    let ds := arrays₁.setVar "binary_region" m
    let _ ← ds.getVar "spatial_region"
    some (ds.assignCoord "spatial_region")

/-- Embedding of `MatlabSample.segment_regions()`.  The mask and filled-mask
file contents (`scipy.io.loadmat(...)["img_seg"]`, `["img_seg_filled"]`) are
passed in as functions of the path.  The reference array `u` is the wave
averaged over frequency and component; the two conditional blocks run only
when their file attribute is set. -/
noncomputable def segment_regions (maskData fillData : String → NDArray ℂ) (s : SampleState) :
    Option SampleState := do
  let arrays ← s.arrays
  let wave ← arrays.getVar "wave"
  let u := wave.mean ["frequency", "component"]
  let arrays₁ ← maskBranch maskData s u arrays
  let arrays₂ ← binBranch fillData s u arrays₁
  return { s with arrays := some arrays₂ }

/-- Embedding of `MatlabSample.create_elastogram()`.  The nibabel image data
(`nib.load(f).get_fdata()`) is passed in as a function of the path.  The
complex elastogram is `storage * exp(1j * loss)`, expanded by a leading
axis, aligned with `as_xarray` onto the wave averaged over component and
timesteps, and stored as the dataset variable `mu`. -/
noncomputable def create_elastogram (nibData : String → NDArray ℝ) (s : SampleState) :
    Option SampleState := do
  let arrays ← s.arrays
  let wave ← arrays.getVar "wave"
  let u := wave.mean ["component", "timesteps"]
  let sf ← s.storage_mod_file
  let lf ← s.loss_mod_file
  let complex_array ← npMultiplyRC (nibData sf) (npExpI (nibData lf))
  let mu_mat := expandDims0 complex_array
  let mu ← as_xarray mu_mat u
  return { s with arrays := some (arrays.setVar "mu" mu) }

/-- Embedding of `MatlabSample.preprocess(storage_mod_file, loss_mod_file)`:
record the two modulus file paths, then `segment_regions` followed by
`create_elastogram`. -/
noncomputable def preprocess (maskData fillData : String → NDArray ℂ)
    (nibData : String → NDArray ℝ) (storage_mod_file loss_mod_file : String)
    (s : SampleState) : Option SampleState := do
  let s₁ := { s with
    storage_mod_file := some storage_mod_file
    loss_mod_file := some loss_mod_file }
  let s₂ ← segment_regions maskData fillData s₁
  create_elastogram nibData s₂

/-- The sample states reachable through the public interface: a freshly
constructed sample, or the successful result of any method call on a
reachable state (with arbitrary file contents). -/
inductive Reachable : SampleState → Prop where
  | init : ∀ fp freq res, Reachable (initState fp freq res)
  | load : ∀ s d rev s₁, Reachable s → load_mat d rev s = some s₁ → Reachable s₁
  | segment : ∀ s mf ff s₁, Reachable s → segment_regions mf ff s = some s₁ → Reachable s₁
  | elasto : ∀ s nd s₁, Reachable s → create_elastogram nd s = some s₁ → Reachable s₁
  | preproc : ∀ s mf ff nd sf lf s₁, Reachable s →
      preprocess mf ff nd sf lf s = some s₁ → Reachable s₁

/-- The data variable `k` of the dataset of a sample state, when both exist. -/
def varAt (s : SampleState) (k : String) : Option DataArray :=
  s.arrays.bind (fun ds => ds.getVar k)

/-- The dimension order of the wave array of a sample state. -/
def waveDims (s : SampleState) : Option (List String) :=
  (varAt s "wave").map DataArray.dims

/-- A coordinate entry of the wave array of a sample state. -/
def waveCoord (s : SampleState) (d : String) : Option CoordVals :=
  (varAt s "wave").bind (fun w => coordOf w.coords d)

/-! Concrete fixtures used by the witness theorems. -/

/-- A tiny mat file: magnitude and phase of shape `(1, 1, 1, 1, 3, 1)`. -/
def mdW : MatData :=
  ⟨⟨[1, 1, 1, 1, 3, 1], fun _ => 0⟩, ⟨[1, 1, 1, 1, 3, 1], fun _ => 0⟩⟩

/-- A mat file of shape `(2, 3, 1, 1, 3, 1)`, loadable as-is but not after
axis reversal. -/
def mdRev : MatData :=
  ⟨⟨[2, 3, 1, 1, 3, 1], fun _ => 0⟩, ⟨[2, 3, 1, 1, 3, 1], fun _ => 0⟩⟩

/-- A freshly constructed sample. -/
def st0 : SampleState := initState "sample.mat" 30 [1, 1, 1]

/-- The sample after loading `mdW`. -/
noncomputable def sL : SampleState := (load_mat mdW true st0).getD st0

/-- Mask file contents of shape `(2, 3, 4, 5)`. -/
def maskC : String → NDArray ℂ := fun _ => ⟨[2, 3, 4, 5], fun _ => 0⟩

/-- Modulus image contents of shape `(1, 1, 1)`, matching `sL`. -/
def nib0 : String → NDArray ℝ := fun _ => ⟨[1, 1, 1], fun _ => 0⟩

/-- The sample `sL` after a successful `preprocess`. -/
noncomputable def sP : SampleState :=
  (preprocess maskC maskC nib0 "storage.nii" "loss.nii" sL).getD sL

/-- A wave array in canonical dimension order with shape `(2, 1, 3, 4, 5, 3)`. -/
def waveW : DataArray := ⟨canonicalDims, [2, 1, 3, 4, 5, 3], [], fun _ => 0⟩

/-- A dataset holding only `waveW`. -/
def dsWv : Dataset := ⟨[("wave", waveW)], []⟩

/-- A sample state with a mask file attached (and the `file_path_mask`
attribute set, which no method of the class ever does). -/
def sMask : SampleState :=
  { mat_file := "f.mat"
    mask_file := some "m.mat"
    bin_mask_file := none
    freq := 30
    resolution := [1, 1, 1]
    arrays := some dsWv
    storage_mod_file := none
    loss_mod_file := none
    file_path_mask := some "p.mat"
    file_path_filled := none }

/-- A sample state ready for `create_elastogram`. -/
def sElast : SampleState :=
  { mat_file := "f.mat"
    mask_file := none
    bin_mask_file := none
    freq := 30
    resolution := [1, 1, 1]
    arrays := some dsWv
    storage_mod_file := some "st.nii"
    loss_mod_file := some "ls.nii"
    file_path_mask := none
    file_path_filled := none }

/-- Modulus image contents of shape `(3, 4, 5)`, matching `waveW`. -/
def nibE : String → NDArray ℝ := fun _ => ⟨[3, 4, 5], fun _ => 0⟩

/-- An array of shape `(2, 1, 3, 4, 3, 1)` accepted by `add_metadata`. -/
def arr10 : NDArray ℂ := ⟨[2, 1, 3, 4, 3, 1], fun _ => 0⟩

/-- A default data array. -/
def dummyDA : DataArray := ⟨[], [], [], fun _ => 0⟩

/-! Basic lemmas about dataset entries and state updates. -/

theorem getEntry_setEntry_self (l : List (String × DataArray)) (k : String) (a : DataArray) :
    getEntry (setEntry l k a) k = some a := by
  induction l with
  | nil => simp [setEntry, getEntry]
  | cons e rest ih =>
    obtain ⟨k₀, a₀⟩ := e
    by_cases hk : k₀ = k
    · simp [setEntry, getEntry, hk]
    · simp [setEntry, getEntry, hk, ih]

theorem getEntry_setEntry_ne (l : List (String × DataArray)) (k j : String) (a : DataArray)
    (h : j ≠ k) : getEntry (setEntry l k a) j = getEntry l j := by
  induction l with
  | nil => simp [setEntry, getEntry, Ne.symm h]
  | cons e rest ih =>
    obtain ⟨k₀, a₀⟩ := e
    by_cases hk : k₀ = k
    · subst hk
      simp [setEntry, getEntry, Ne.symm h]
    · simp only [setEntry, if_neg hk, getEntry]
      by_cases hj : k₀ = j
      · simp [hj]
      · simp [hj, ih]

theorem setEntry_setEntry (l : List (String × DataArray)) (k : String) (a : DataArray) :
    setEntry (setEntry l k a) k a = setEntry l k a := by
  induction l with
  | nil => simp [setEntry]
  | cons e rest ih =>
    obtain ⟨k₀, a₀⟩ := e
    by_cases hk : k₀ = k <;> simp [setEntry, hk, ih]

theorem getVar_setVar_self (ds : Dataset) (k : String) (a : DataArray) :
    (ds.setVar k a).getVar k = some a :=
  getEntry_setEntry_self ds.vars k a

theorem getVar_setVar_ne (ds : Dataset) (k j : String) (a : DataArray) (h : j ≠ k) :
    (ds.setVar k a).getVar j = ds.getVar j :=
  getEntry_setEntry_ne ds.vars k j a h

theorem getVar_assignCoord (ds : Dataset) (k j : String) :
    (ds.assignCoord j).getVar k = ds.getVar k := rfl

theorem setVar_setVar_self (ds : Dataset) (k : String) (a : DataArray) :
    (ds.setVar k a).setVar k a = ds.setVar k a := by
  simp [Dataset.setVar, setEntry_setEntry]

theorem arrays_update_self (s : SampleState) (A : Dataset) (h : s.arrays = some A) :
    { s with arrays := some A } = s := by
  cases s
  simp_all

theorem files_update_self (s : SampleState) (sf lf : String)
    (h₁ : s.storage_mod_file = some sf) (h₂ : s.loss_mod_file = some lf) :
    { s with storage_mod_file := some sf, loss_mod_file := some lf } = s := by
  cases s
  simp_all

/-! Inversion and computation lemmas for the embedded methods. -/

theorem npExpI_shape (p : NDArray ℝ) : (npExpI p).shape = p.shape := rfl

theorem constructWave_eq_some (m p : NDArray ℝ) (w : NDArray ℂ) :
    constructWave m p = some w ↔
      m.shape = p.shape ∧
      w = ⟨m.shape, fun i => (m.data i : ℂ) * Complex.exp (Complex.I * (p.data i : ℂ))⟩ := by
  unfold constructWave npMultiplyRC
  constructor
  · intro h
    split at h
    · exact ⟨by assumption, by injection h.symm⟩
    · simp at h
  · rintro ⟨h₁, h₂⟩
    simp [npExpI_shape, h₁, h₂]
    rfl

theorem as_xarray_inv (a : NDArray ℂ) (like m : DataArray) (h : as_xarray a like = some m) :
    m.dims = like.dims ∧ m.shape = like.shape ∧ m.coords = like.coords := by
  unfold as_xarray at h
  split at h
  · injection h with h; subst h; exact ⟨rfl, rfl, rfl⟩
  · split at h
    · injection h with h; subst h; exact ⟨rfl, rfl, rfl⟩
    · simp at h

theorem addMetadata_inv (freq : ℝ) (res : List ℝ) (array : NDArray ℂ) (w : DataArray)
    (h : addMetadata freq res array = some w) :
    ∃ r0 r1 r2, res.get? 0 = some r0 ∧ res.get? 1 = some r1 ∧ res.get? 2 = some r2 ∧
      array.shape.length = 6 ∧ array.shape.getD 4 0 = 3 ∧ array.shape.getD 5 0 = 1 ∧
      w = DataArray.transpose
        ⟨mdDims, array.shape, mdCoords freq r0 r1 r2 array.shape, array.data⟩ canonicalDims := by
  unfold addMetadata at h
  simp only [Option.bind_eq_bind, Option.pure_def, Option.bind_eq_some, Option.some.injEq] at h
  obtain ⟨r0, h0, r1, h1, r2, h2, arr, hmk, hw⟩ := h
  unfold mkDataArray at hmk
  split at hmk
  case isFalse => exact absurd hmk (by simp)
  case isTrue hcond =>
    have hlen : array.shape.length = 6 := by
      have h6 := hcond.1
      simp only [mdDims, List.length_cons, List.length_nil] at h6
      omega
    have hcomp := hcond.2 ("component", CoordVals.strs ["x", "y", "z"]) (by simp [mdCoords])
    have hfreqc := hcond.2 ("frequency", CoordVals.nums [freq]) (by simp [mdCoords])
    have hidxc : mdDims.indexOf "component" = 4 := rfl
    have hidxf : mdDims.indexOf "frequency" = 5 := rfl
    have h4 : array.shape.getD 4 0 = 3 := by
      have h3 := hcomp.2
      simp only [coordLen, dimSize, hidxc, List.length_cons, List.length_nil] at h3
      omega
    have h5 : array.shape.getD 5 0 = 1 := by
      have h3 := hfreqc.2
      simp only [coordLen, dimSize, hidxf, List.length_cons, List.length_nil] at h3
      omega
    injection hmk with hmk
    exact ⟨r0, r1, r2, h0, h1, h2, hlen, h4, h5, by rw [← hw, ← hmk]⟩

theorem load_mat_inv (d : MatData) (rev : Bool) (s s₁ : SampleState)
    (h : load_mat d rev s = some s₁) :
    ∃ wave w, constructWave d.magnitude d.phase = some wave ∧
      addMetadata s.freq s.resolution wave = some w ∧
      s₁ = { s with arrays := some ⟨[("wave", w)], []⟩ } := by
  unfold load_mat at h
  simp only [Option.bind_eq_bind, Option.pure_def, Option.bind_eq_some, Option.some.injEq] at h
  obtain ⟨wave, hw, w, hmd, hs⟩ := h
  exact ⟨wave, w, hw, hmd, hs.symm⟩

theorem maskBranch_inv (mf : String → NDArray ℂ) (s : SampleState)
    (u : DataArray) (arrays A₁ : Dataset) (h : maskBranch mf s u arrays = some A₁) :
    (s.mask_file = none ∧ A₁ = arrays) ∨
      (∃ mfile path m, s.mask_file = some mfile ∧ s.file_path_mask = some path ∧
        as_xarray (mf path) u = some m ∧
        A₁ = (arrays.setVar "spatial_region" m).assignCoord "spatial_region") := by
  unfold maskBranch at h
  rcases hm : s.mask_file with _ | mfile
  · rw [hm] at h
    exact Or.inl ⟨rfl, by injection h.symm⟩
  · rw [hm] at h
    simp only [Option.bind_eq_bind, Option.pure_def, Option.bind_eq_some, Option.some.injEq] at h
    obtain ⟨path, hp, m, hmm, hA⟩ := h
    exact Or.inr ⟨mfile, path, m, rfl, hp, hmm, hA.symm⟩

theorem binBranch_inv (ff : String → NDArray ℂ) (s : SampleState)
    (u : DataArray) (arrays₁ A₂ : Dataset) (h : binBranch ff s u arrays₁ = some A₂) :
    (s.bin_mask_file = none ∧ A₂ = arrays₁) ∨
      (∃ bfile path m, s.bin_mask_file = some bfile ∧ s.file_path_filled = some path ∧
        as_xarray (ff path) u = some m ∧
        A₂ = (arrays₁.setVar "binary_region" m).assignCoord "spatial_region") := by
  unfold binBranch at h
  rcases hb : s.bin_mask_file with _ | bfile
  · rw [hb] at h
    exact Or.inl ⟨rfl, by injection h.symm⟩
  · rw [hb] at h
    simp only [Option.bind_eq_bind, Option.pure_def, Option.bind_eq_some, Option.some.injEq] at h
    obtain ⟨path, hp, m, hmm, sr, hsr, hA⟩ := h
    exact Or.inr ⟨bfile, path, m, rfl, hp, hmm, hA.symm⟩

theorem maskBranch_none (mf : String → NDArray ℂ) (s : SampleState)
    (u : DataArray) (arrays : Dataset) (hm : s.mask_file = none) :
    maskBranch mf s u arrays = some arrays := by
  unfold maskBranch
  rw [hm]

theorem binBranch_none (ff : String → NDArray ℂ) (s : SampleState)
    (u : DataArray) (arrays₁ : Dataset) (hb : s.bin_mask_file = none) :
    binBranch ff s u arrays₁ = some arrays₁ := by
  unfold binBranch
  rw [hb]

theorem segment_regions_inv (mf ff : String → NDArray ℂ) (s s₁ : SampleState)
    (h : segment_regions mf ff s = some s₁) :
    ∃ ds wave, s.arrays = some ds ∧ ds.getVar "wave" = some wave ∧
    ∃ A₁ A₂ : Dataset,
      s₁ = { s with arrays := some A₂ } ∧
      ((s.mask_file = none ∧ A₁ = ds) ∨
        (∃ mfile path m, s.mask_file = some mfile ∧ s.file_path_mask = some path ∧
          as_xarray (mf path) (wave.mean ["frequency", "component"]) = some m ∧
          A₁ = (ds.setVar "spatial_region" m).assignCoord "spatial_region")) ∧
      ((s.bin_mask_file = none ∧ A₂ = A₁) ∨
        (∃ bfile path m, s.bin_mask_file = some bfile ∧ s.file_path_filled = some path ∧
          as_xarray (ff path) (wave.mean ["frequency", "component"]) = some m ∧
          A₂ = (A₁.setVar "binary_region" m).assignCoord "spatial_region")) := by
  unfold segment_regions at h
  simp only [Option.bind_eq_bind, Option.pure_def, Option.bind_eq_some, Option.some.injEq] at h
  obtain ⟨ds, hds, wave, hwave, A₁, hA₁, A₂, hA₂, hs⟩ := h
  exact ⟨ds, wave, hds, hwave, A₁, A₂, hs.symm, maskBranch_inv mf s _ ds A₁ hA₁,
    binBranch_inv ff s _ A₁ A₂ hA₂⟩

theorem create_elastogram_inv (nd : String → NDArray ℝ) (s s₁ : SampleState)
    (h : create_elastogram nd s = some s₁) :
    ∃ ds wave sf lf raw mu, s.arrays = some ds ∧ ds.getVar "wave" = some wave ∧
      s.storage_mod_file = some sf ∧ s.loss_mod_file = some lf ∧
      npMultiplyRC (nd sf) (npExpI (nd lf)) = some raw ∧
      as_xarray (expandDims0 raw) (wave.mean ["component", "timesteps"]) = some mu ∧
      s₁ = { s with arrays := some (ds.setVar "mu" mu) } := by
  unfold create_elastogram at h
  simp only [Option.bind_eq_bind, Option.pure_def, Option.bind_eq_some, Option.some.injEq] at h
  obtain ⟨ds, hds, wave, hwave, sf, hsf, lf, hlf, raw, hraw, mu, hmu, hs⟩ := h
  exact ⟨ds, wave, sf, lf, raw, mu, hds, hwave, hsf, hlf, hraw, hmu, hs.symm⟩

theorem segment_regions_nomask (mf ff : String → NDArray ℂ) (s : SampleState)
    (ds : Dataset) (wave : DataArray)
    (hm : s.mask_file = none) (hb : s.bin_mask_file = none)
    (ha : s.arrays = some ds) (hw : ds.getVar "wave" = some wave) :
    segment_regions mf ff s = some s := by
  unfold segment_regions
  rw [ha]
  simp only [Option.bind_eq_bind, Option.pure_def, Option.some_bind, hw,
    maskBranch_none mf s _ ds hm, binBranch_none ff s _ ds hb]
  exact congrArg some (arrays_update_self s ds ha)

theorem create_elastogram_run (nd : String → NDArray ℝ) (s : SampleState)
    (ds : Dataset) (wave : DataArray) (sf lf : String) (raw : NDArray ℂ) (mu : DataArray)
    (ha : s.arrays = some ds) (hw : ds.getVar "wave" = some wave)
    (hsf : s.storage_mod_file = some sf) (hlf : s.loss_mod_file = some lf)
    (hraw : npMultiplyRC (nd sf) (npExpI (nd lf)) = some raw)
    (hmu : as_xarray (expandDims0 raw) (wave.mean ["component", "timesteps"]) = some mu) :
    create_elastogram nd s = some { s with arrays := some (ds.setVar "mu" mu) } := by
  unfold create_elastogram
  rw [ha, hsf, hlf]
  simp only [Option.bind_eq_bind, Option.pure_def, Option.some_bind, hw, hraw, hmu]

theorem preprocess_eq (mf ff : String → NDArray ℂ) (nd : String → NDArray ℝ)
    (sf lf : String) (s : SampleState) :
    preprocess mf ff nd sf lf s =
      (segment_regions mf ff
        { s with storage_mod_file := some sf, loss_mod_file := some lf }).bind
        (create_elastogram nd) := rfl

/-- The key state invariant: `__init__` leaves `mask_file`, `bin_mask_file`
unset (`None`) and never creates `file_path_mask` or `file_path_filled`, and
no method of the class assigns any of them. -/
theorem reachable_invariant (s : SampleState) (hr : Reachable s) :
    s.mask_file = none ∧ s.bin_mask_file = none ∧
    s.file_path_mask = none ∧ s.file_path_filled = none := by
  induction hr with
  | init fp freq res => exact ⟨rfl, rfl, rfl, rfl⟩
  | load s d rev s₁ _ h ih =>
    obtain ⟨wave, w, _, _, hs⟩ := load_mat_inv d rev s s₁ h
    rw [hs]
    exact ih
  | segment s mf ff s₁ _ h ih =>
    obtain ⟨ds, wave, _, _, A₁, A₂, hs, _, _⟩ := segment_regions_inv mf ff s s₁ h
    rw [hs]
    exact ih
  | elasto s nd s₁ _ h ih =>
    obtain ⟨ds, wave, sf, lf, raw, mu, _, _, _, _, _, _, hs⟩ :=
      create_elastogram_inv nd s s₁ h
    rw [hs]
    exact ih
  | preproc s mf ff nd sf lf s₁ _ h ih =>
    rw [preprocess_eq] at h
    simp only [Option.bind_eq_some] at h
    obtain ⟨s₂, h₂, h₃⟩ := h
    obtain ⟨ds, wave, _, _, A₁, A₂, hs₂, _, _⟩ := segment_regions_inv mf ff _ s₂ h₂
    obtain ⟨ds₃, wave₃, sf₃, lf₃, raw, mu, _, _, _, _, _, _, hs₃⟩ :=
      create_elastogram_inv nd s₂ s₁ h₃
    rw [hs₃, hs₂]
    exact ih

/-! The claim theorems. -/

/-- C1: for every magnitude/phase pair of real-valued arrays of identical
shape S, the complex wave construction of `load_mat` yields a wave field of
shape S equal to `magnitude * exp(i * phase)` elementwise. -/
theorem c1_wave_is_magnitude_exp_phase (m p : NDArray ℝ) (h : m.shape = p.shape) :
    ∃ w, constructWave m p = some w ∧ w.shape = m.shape ∧
      ∀ idx, w.data idx = (m.data idx : ℂ) * Complex.exp (Complex.I * (p.data idx : ℂ)) := by
  refine ⟨⟨m.shape, fun i => (m.data i : ℂ) * Complex.exp (Complex.I * (p.data i : ℂ))⟩,
    ?_, rfl, fun idx => rfl⟩
  exact (constructWave_eq_some m p _).mpr ⟨h, rfl⟩

/-- Witness for C1 at a concrete magnitude/phase pair of shape `(1,1,1,1,3,1)`. -/
theorem c1_witness :
    mdW.magnitude.shape = mdW.phase.shape ∧
    ∃ w, constructWave mdW.magnitude mdW.phase = some w ∧ w.shape = mdW.magnitude.shape ∧
      ∀ idx, w.data idx = (mdW.magnitude.data idx : ℂ) *
        Complex.exp (Complex.I * (mdW.phase.data idx : ℂ)) :=
  ⟨rfl, c1_wave_is_magnitude_exp_phase mdW.magnitude mdW.phase rfl⟩

/-- C4: `_load_mat_file` returns the scipy result directly for a legacy
file; a `NotImplementedError` (MATLAB v7.3) selects the h5py fallback; any
other reader failure is reported on stderr with the failing filename and
the original exception is re-raised, with no retry and no partial result. -/
theorem c4_load_mat_file_branches (fname : String) (scipyRes h5Res : Except PyExc MatData) :
    (∀ d, scipyRes = .ok d → loadMatFileFn fname scipyRes h5Res = .ok (d, true)) ∧
    (∀ d, scipyRes = .error .notImplementedError → h5Res = .ok d →
      loadMatFileFn fname scipyRes h5Res = .ok (d, false)) ∧
    (∀ msg, scipyRes = .error (.other msg) →
      loadMatFileFn fname scipyRes h5Res =
        .error ⟨some ("Failed to load " ++ fname), .other msg⟩) := by
  refine ⟨?_, ?_, ?_⟩
  · rintro d rfl
    rfl
  · rintro d rfl rfl
    rfl
  · rintro msg rfl
    rfl

/-- Witness for C4: all three branches at concrete reader outcomes. -/
theorem c4_witness :
    loadMatFileFn "a.mat" (.ok mdW) (.error (.other "x")) = .ok (mdW, true) ∧
    loadMatFileFn "a.mat" (.error .notImplementedError) (.ok mdW) = .ok (mdW, false) ∧
    loadMatFileFn "a.mat" (.error (.other "boom")) (.ok mdW) =
      .error ⟨some ("Failed to load " ++ "a.mat"), .other "boom"⟩ :=
  ⟨(c4_load_mat_file_branches "a.mat" (.ok mdW) (.error (.other "x"))).1 mdW rfl,
   (c4_load_mat_file_branches "a.mat" (.error .notImplementedError) (.ok mdW)).2.1 mdW rfl rfl,
   (c4_load_mat_file_branches "a.mat" (.error (.other "boom")) (.ok mdW)).2.2 "boom" rfl⟩

/-- C10: `add_metadata` succeeds only on a 6-axis array whose fifth axis
(component) has length 3 and whose sixth axis (frequency) has length 1, and
on success the frequency coordinate is exactly the single constructor
frequency and the component coordinates are exactly `x, y, z`. -/
theorem c10_add_metadata_requirements (freq : ℝ) (res : List ℝ) (a : NDArray ℂ) :
    ((addMetadata freq res a).isSome →
      a.shape.length = 6 ∧ a.shape.getD 4 0 = 3 ∧ a.shape.getD 5 0 = 1) ∧
    ∀ w, addMetadata freq res a = some w →
      coordOf w.coords "frequency" = some (CoordVals.nums [freq]) ∧
      coordOf w.coords "component" = some (CoordVals.strs ["x", "y", "z"]) := by
  constructor
  · intro h
    obtain ⟨w, hw⟩ := Option.isSome_iff_exists.mp h
    obtain ⟨r0, r1, r2, _, _, _, hlen, h4, h5, _⟩ := addMetadata_inv freq res a w hw
    exact ⟨hlen, h4, h5⟩
  · intro w hw
    obtain ⟨r0, r1, r2, _, _, _, _, _, _, hweq⟩ := addMetadata_inv freq res a w hw
    subst hweq
    exact ⟨rfl, rfl⟩

/-- Witness for C10 at the concrete array `arr10` of shape `(2,1,3,4,3,1)`. -/
theorem c10_witness :
    (arr10.shape.length = 6 ∧ arr10.shape.getD 4 0 = 3 ∧ arr10.shape.getD 5 0 = 1) ∧
    (coordOf ((addMetadata 30 [1, 1, 1] arr10).getD dummyDA).coords "frequency" =
        some (CoordVals.nums [30]) ∧
      coordOf ((addMetadata 30 [1, 1, 1] arr10).getD dummyDA).coords "component" =
        some (CoordVals.strs ["x", "y", "z"])) :=
  ⟨(c10_add_metadata_requirements 30 [1, 1, 1] arr10).1 rfl,
   (c10_add_metadata_requirements 30 [1, 1, 1] arr10).2
     ((addMetadata 30 [1, 1, 1] arr10).getD dummyDA) rfl⟩

/-- C6: for a wave constructed by `load_mat` on a freshly initialized
sample, the coordinate values of the spatial axes x, y, z are exactly
`index * resolution[axis]` for indices `0 .. axis length - 1`. -/
theorem c6_spatial_coordinates (md : MatData) (rev : Bool) (fp : String) (freq : ℝ)
    (res : List ℝ) (r0 r1 r2 : ℝ) (s₁ : SampleState)
    (h0 : res.get? 0 = some r0) (h1 : res.get? 1 = some r1) (h2 : res.get? 2 = some r2)
    (h : load_mat md rev (initState fp freq res) = some s₁) :
    waveCoord s₁ "x" = some (CoordVals.nums
      ((List.range (md.magnitude.shape.getD 0 0)).map (fun i => (i : ℝ) * r0))) ∧
    waveCoord s₁ "y" = some (CoordVals.nums
      ((List.range (md.magnitude.shape.getD 1 0)).map (fun i => (i : ℝ) * r1))) ∧
    waveCoord s₁ "z" = some (CoordVals.nums
      ((List.range (md.magnitude.shape.getD 2 0)).map (fun i => (i : ℝ) * r2))) := by
  obtain ⟨wave, w, hcw, hmd, hs⟩ := load_mat_inv md rev _ s₁ h
  obtain ⟨hsh, hwave⟩ := (constructWave_eq_some _ _ _).mp hcw
  obtain ⟨r0', r1', r2', h0', h1', h2', _, _, _, hweq⟩ :=
    addMetadata_inv freq res wave w hmd
  have e0 : r0' = r0 := Option.some.inj (h0'.symm.trans h0)
  have e1 : r1' = r1 := Option.some.inj (h1'.symm.trans h1)
  have e2 : r2' = r2 := Option.some.inj (h2'.symm.trans h2)
  subst e0 e1 e2 hwave hweq hs
  exact ⟨rfl, rfl, rfl⟩

/-- Witness for C6: the sample `sL`, loaded with unit resolution. -/
theorem c6_witness :
    waveCoord sL "x" = some (CoordVals.nums
      ((List.range (mdW.magnitude.shape.getD 0 0)).map (fun i => (i : ℝ) * 1))) ∧
    waveCoord sL "y" = some (CoordVals.nums
      ((List.range (mdW.magnitude.shape.getD 1 0)).map (fun i => (i : ℝ) * 1))) ∧
    waveCoord sL "z" = some (CoordVals.nums
      ((List.range (mdW.magnitude.shape.getD 2 0)).map (fun i => (i : ℝ) * 1))) :=
  c6_spatial_coordinates mdW true "sample.mat" 30 [1, 1, 1] 1 1 1 sL rfl rfl rfl rfl

/-- C2 counterexample: the claim that `load_mat` applies the axis reversal
demanded by the on-disk format version is false under either reading of the
flag.  At the concrete input `mdRev` (shape `(2,3,1,1,3,1)`), on the flag
value that demands reversal, the reversal-applying reading of the claim
(`load_mat_claim`) fails — the reversed frequency axis has length 2, so the
coordinate assignment rejects it — while the actual `load_mat` succeeds:
the source binds `rev_axes` and never uses it. -/
theorem c2_counterexample :
    load_mat_claim true mdRev true st0 ≠ load_mat mdRev true st0 ∧
    load_mat_claim false mdRev false st0 ≠ load_mat mdRev false st0 := by
  constructor
  · intro h
    have h₁ : (load_mat_claim true mdRev true st0).isSome = false := rfl
    have h₂ : (load_mat mdRev true st0).isSome = true := rfl
    rw [h, h₂] at h₁
    exact Bool.noConfusion h₁
  · intro h
    have h₁ : (load_mat_claim false mdRev false st0).isSome = false := rfl
    have h₂ : (load_mat mdRev false st0).isSome = true := rfl
    rw [h, h₂] at h₁
    exact Bool.noConfusion h₁

/-- C2 (amended): the axis order of the wave produced by `load_mat` is
always `(timesteps, frequency, x, y, z, component)`, but the axis-reversal
flag returned by `_load_mat_file` is ignored: the result is identical for
both values of the flag, so no reversal is ever applied. -/
theorem c2_canonical_axis_order (md : MatData) (rev : Bool) (s s₁ : SampleState)
    (h : load_mat md rev s = some s₁) :
    waveDims s₁ = some canonicalDims ∧ load_mat md true s = load_mat md false s := by
  obtain ⟨wave, w, hcw, hmd, hs⟩ := load_mat_inv md rev s s₁ h
  obtain ⟨r0, r1, r2, _, _, _, _, _, _, hweq⟩ :=
    addMetadata_inv s.freq s.resolution wave w hmd
  subst hweq hs
  exact ⟨rfl, rfl⟩

/-- Witness for the amended C2 at the concrete loaded sample `sL`. -/
theorem c2_witness :
    waveDims sL = some canonicalDims ∧ load_mat mdW true st0 = load_mat mdW false st0 :=
  c2_canonical_axis_order mdW true st0 sL rfl

/-- C9: in every state reachable through the public interface, `mask_file`
and `bin_mask_file` are `None` and the `file_path_mask` / `file_path_filled`
attributes are never set, so `segment_regions` takes neither branch and,
whenever it returns, leaves the state (including `self.arrays`) unchanged. -/
theorem c9_mask_branches_dead (s : SampleState) (hr : Reachable s) :
    s.mask_file = none ∧ s.bin_mask_file = none ∧
    s.file_path_mask = none ∧ s.file_path_filled = none ∧
    ∀ (mf ff : String → NDArray ℂ) (s₁ : SampleState),
      segment_regions mf ff s = some s₁ → s₁ = s := by
  obtain ⟨h1, h2, h3, h4⟩ := reachable_invariant s hr
  refine ⟨h1, h2, h3, h4, ?_⟩
  intro mf ff s₁ h
  obtain ⟨ds, wave, hds, hwave, A₁, A₂, hs, hb1, hb2⟩ := segment_regions_inv mf ff s s₁ h
  rcases hb1 with ⟨_, hA₁⟩ | ⟨mfile, _, _, hmf, _⟩
  · rcases hb2 with ⟨_, hA₂⟩ | ⟨bfile, _, _, hbf, _⟩
    · rw [hs, hA₂, hA₁, arrays_update_self s ds hds]
    · rw [h2] at hbf
      exact Option.noConfusion hbf
  · rw [h1] at hmf
    exact Option.noConfusion hmf

/-- Witness for C9 at the concrete loaded sample `sL`. -/
theorem c9_witness :
    sL.mask_file = none ∧ (segment_regions maskC maskC sL).getD sL = sL := by
  have hr : Reachable sL :=
    Reachable.load st0 mdW true sL (Reachable.init "sample.mat" 30 [1, 1, 1]) rfl
  have h9 := c9_mask_branches_dead sL hr
  exact ⟨h9.1, h9.2.2.2.2 maskC maskC ((segment_regions maskC maskC sL).getD sL) rfl⟩

/-- C5: when a mask file is attached (and the path attribute the branch
reads is set), the mask is aligned by `as_xarray` shape-matching against
the reduced reference array `wave.mean(["frequency", "component"])`, and the
stored `spatial_region` carries the dims and coords of that reference — the
coordinate system of the primary array — not the mask file axis order. -/
theorem c5_mask_aligned_to_reference (mf ff : String → NDArray ℂ) (s : SampleState)
    (mfile path : String) (ds : Dataset) (wave : DataArray) (s₁ : SampleState)
    (hm : s.mask_file = some mfile) (hp : s.file_path_mask = some path)
    (ha : s.arrays = some ds) (hw : ds.getVar "wave" = some wave)
    (h : segment_regions mf ff s = some s₁) :
    ∃ m ds₁, as_xarray (mf path) (wave.mean ["frequency", "component"]) = some m ∧
      m.dims = (wave.mean ["frequency", "component"]).dims ∧
      m.coords = (wave.mean ["frequency", "component"]).coords ∧
      s₁.arrays = some ds₁ ∧ ds₁.getVar "spatial_region" = some m := by
  obtain ⟨ds', wave', hds', hwave', A₁, A₂, hs, hb1, hb2⟩ := segment_regions_inv mf ff s s₁ h
  have eds : ds = ds' := Option.some.inj (ha.symm.trans hds')
  subst eds
  have ewave : wave = wave' := Option.some.inj (hw.symm.trans hwave')
  subst ewave
  rcases hb1 with ⟨hnone, _⟩ | ⟨mfile', path', m, hmf', hp', hmm, hA₁⟩
  · rw [hm] at hnone
    exact Option.noConfusion hnone
  · have epath : path' = path := Option.some.inj (hp'.symm.trans hp)
    subst epath
    obtain ⟨hdims, hshape, hcoords⟩ := as_xarray_inv _ _ _ hmm
    have hA₁sr : A₁.getVar "spatial_region" = some m := by
      rw [hA₁, getVar_assignCoord, getVar_setVar_self]
    refine ⟨m, A₂, hmm, hdims, hcoords, by rw [hs], ?_⟩
    rcases hb2 with ⟨_, hA₂⟩ | ⟨bfile, path₂, m₂, _, _, _, hA₂⟩
    · rw [hA₂]
      exact hA₁sr
    · rw [hA₂, getVar_assignCoord, getVar_setVar_ne _ _ _ _ (by decide)]
      exact hA₁sr

/-- Witness for C5 at the concrete state `sMask` with a mask of shape
`(2,3,4,5)` matching the reduced reference array. -/
theorem c5_witness :
    ∃ m ds₁, as_xarray (maskC "p.mat") (waveW.mean ["frequency", "component"]) = some m ∧
      m.dims = (waveW.mean ["frequency", "component"]).dims ∧
      m.coords = (waveW.mean ["frequency", "component"]).coords ∧
      ((segment_regions maskC maskC sMask).getD sMask).arrays = some ds₁ ∧
      ds₁.getVar "spatial_region" = some m :=
  c5_mask_aligned_to_reference maskC maskC sMask "m.mat" "p.mat" dsWv waveW
    ((segment_regions maskC maskC sMask).getD sMask) rfl rfl rfl rfl rfl

/-- C7: `create_elastogram` builds the complex elastogram exactly as the
wave is built — `storage * exp(i * loss)` elementwise from the two modulus
images — aligns it onto the coordinate system of the wave (averaged over
component and timesteps) and attaches it as the new dataset variable `mu`. -/
theorem c7_elastogram_construction (nd : String → NDArray ℝ) (s : SampleState)
    (sf lf : String) (ds : Dataset) (wave : DataArray) (s₁ : SampleState)
    (hsf : s.storage_mod_file = some sf) (hlf : s.loss_mod_file = some lf)
    (ha : s.arrays = some ds) (hw : ds.getVar "wave" = some wave)
    (h : create_elastogram nd s = some s₁) :
    ∃ raw mu,
      npMultiplyRC (nd sf) (npExpI (nd lf)) = some raw ∧
      (∀ idx, raw.data idx = ((nd sf).data idx : ℂ) *
        Complex.exp (Complex.I * ((nd lf).data idx : ℂ))) ∧
      as_xarray (expandDims0 raw) (wave.mean ["component", "timesteps"]) = some mu ∧
      mu.dims = (wave.mean ["component", "timesteps"]).dims ∧
      mu.coords = (wave.mean ["component", "timesteps"]).coords ∧
      s₁.arrays = some (ds.setVar "mu" mu) ∧
      (ds.setVar "mu" mu).getVar "mu" = some mu := by
  obtain ⟨ds', wave', sf', lf', raw, mu, hds', hwave', hsf', hlf', hraw, hmu, hs⟩ :=
    create_elastogram_inv nd s s₁ h
  have eds : ds = ds' := Option.some.inj (ha.symm.trans hds')
  subst eds
  have ewave : wave = wave' := Option.some.inj (hw.symm.trans hwave')
  subst ewave
  have esf : sf = sf' := Option.some.inj (hsf.symm.trans hsf')
  subst esf
  have elf : lf = lf' := Option.some.inj (hlf.symm.trans hlf')
  subst elf
  obtain ⟨hsh, hreq⟩ := (constructWave_eq_some (nd sf) (nd lf) raw).mp hraw
  obtain ⟨hdims, hshape, hcoords⟩ := as_xarray_inv _ _ _ hmu
  refine ⟨raw, mu, hraw, ?_, hmu, hdims, hcoords, by rw [hs], getVar_setVar_self ds "mu" mu⟩
  subst hreq
  exact fun idx => rfl

/-- Witness for C7 at the concrete state `sElast` with modulus images of
shape `(3,4,5)` matching the reduced reference array. -/
theorem c7_witness :
    ∃ raw mu,
      npMultiplyRC (nibE "st.nii") (npExpI (nibE "ls.nii")) = some raw ∧
      (∀ idx, raw.data idx = ((nibE "st.nii").data idx : ℂ) *
        Complex.exp (Complex.I * ((nibE "ls.nii").data idx : ℂ))) ∧
      as_xarray (expandDims0 raw) (waveW.mean ["component", "timesteps"]) = some mu ∧
      mu.dims = (waveW.mean ["component", "timesteps"]).dims ∧
      mu.coords = (waveW.mean ["component", "timesteps"]).coords ∧
      ((create_elastogram nibE sElast).getD sElast).arrays = some (dsWv.setVar "mu" mu) ∧
      (dsWv.setVar "mu" mu).getVar "mu" = some mu :=
  c7_elastogram_construction nibE sElast "st.nii" "ls.nii" dsWv waveW
    ((create_elastogram nibE sElast).getD sElast) rfl rfl rfl rfl rfl

/-- C3: a successful `preprocess` never alters the primary wave entry (its
values, shape, dims and coords are those of the stored `DataArray`, which is
preserved as a whole) and changes no dataset variable other than the added
`spatial_region`, `binary_region` and `mu` entries. -/
theorem c3_preprocess_preserves_wave (mf ff : String → NDArray ℂ) (nd : String → NDArray ℝ)
    (sf lf : String) (s s₁ : SampleState)
    (h : preprocess mf ff nd sf lf s = some s₁) :
    varAt s₁ "wave" = varAt s "wave" ∧
    ∀ k, k ≠ "spatial_region" → k ≠ "binary_region" → k ≠ "mu" →
      varAt s₁ k = varAt s k := by
  rw [preprocess_eq] at h
  simp only [Option.bind_eq_some] at h
  obtain ⟨s₂, h₂, h₃⟩ := h
  obtain ⟨ds, wave, hds, hwave, A₁, A₂, hs₂, hb1, hb2⟩ := segment_regions_inv mf ff _ s₂ h₂
  obtain ⟨ds₃, wave₃, sf₃, lf₃, raw, mu, hds₃, hwave₃, _, _, _, _, hs₃⟩ :=
    create_elastogram_inv nd s₂ s₁ h₃
  rw [hs₂] at hds₃
  have eA : A₂ = ds₃ := Option.some.inj hds₃
  subst eA
  have hstep : ∀ k, k ≠ "spatial_region" → k ≠ "binary_region" → k ≠ "mu" →
      varAt s₁ k = varAt s k := by
    intro k k1 k2 k3
    rw [hs₃]
    show (A₂.setVar "mu" mu).getVar k = varAt s k
    rw [getVar_setVar_ne _ _ _ _ k3]
    have hA2k : A₂.getVar k = A₁.getVar k := by
      rcases hb2 with ⟨_, hA₂⟩ | ⟨bfile, p₂, m₂, _, _, _, hA₂⟩
      · rw [hA₂]
      · rw [hA₂, getVar_assignCoord, getVar_setVar_ne _ _ _ _ k2]
    have hA1k : A₁.getVar k = ds.getVar k := by
      rcases hb1 with ⟨_, hA₁⟩ | ⟨mfile, p₁, m₁, _, _, _, hA₁⟩
      · rw [hA₁]
      · rw [hA₁, getVar_assignCoord, getVar_setVar_ne _ _ _ _ k1]
    have hvs : varAt s k = ds.getVar k := by
      unfold varAt
      rw [show s.arrays = some ds from hds]
      rfl
    rw [hA2k, hA1k, hvs]
  exact ⟨hstep "wave" (by decide) (by decide) (by decide), hstep⟩

/-- Witness for C3 at the concrete loaded sample `sL`. -/
theorem c3_witness :
    varAt ((preprocess maskC maskC nib0 "storage.nii" "loss.nii" sL).getD sL) "wave" =
      varAt sL "wave" :=
  (c3_preprocess_preserves_wave maskC maskC nib0 "storage.nii" "loss.nii" sL
    ((preprocess maskC maskC nib0 "storage.nii" "loss.nii" sL).getD sL) rfl).1

/-- C8: for every sample reachable through the public interface that has a
loaded wave, a successful `preprocess` is idempotent — running it again with
the same file arguments succeeds and leaves the dataset state unchanged. -/
theorem c8_preprocess_idempotent (mf ff : String → NDArray ℂ) (nd : String → NDArray ℝ)
    (sf lf : String) (s s₁ : SampleState) (hr : Reachable s)
    (h : preprocess mf ff nd sf lf s = some s₁) :
    preprocess mf ff nd sf lf s₁ = some s₁ := by
  obtain ⟨h1, h2, h3, h4⟩ := reachable_invariant s hr
  rw [preprocess_eq] at h
  simp only [Option.bind_eq_some] at h
  obtain ⟨s₂, h₂, h₃⟩ := h
  obtain ⟨ds, wave, hds, hwave, A₁, A₂, hs₂, hb1, hb2⟩ := segment_regions_inv mf ff _ s₂ h₂
  rcases hb1 with ⟨_, hA₁⟩ | ⟨mfile, p₁, m₁, hmf, _, _, _⟩
  swap
  · exact absurd (show s.mask_file = some mfile from hmf) (by rw [h1]; simp)
  rcases hb2 with ⟨_, hA₂⟩ | ⟨bfile, p₂, m₂, hbf, _, _, _⟩
  swap
  · exact absurd (show s.bin_mask_file = some bfile from hbf) (by rw [h2]; simp)
  have hs₂' : s₂ = { s with storage_mod_file := some sf, loss_mod_file := some lf } := by
    rw [hs₂, hA₂, hA₁]
    exact arrays_update_self
      { s with storage_mod_file := some sf, loss_mod_file := some lf } ds hds
  obtain ⟨ds₃, wave₃, sf₃, lf₃, raw, mu, hds₃, hwave₃, hsf₃, hlf₃, hraw, hmu, hs₃⟩ :=
    create_elastogram_inv nd s₂ s₁ h₃
  have eds : ds = ds₃ := by
    rw [hs₂'] at hds₃
    exact Option.some.inj (show some ds = some ds₃ from (show s.arrays = some ds from hds).symm.trans hds₃)
  subst eds
  have ewv : wave = wave₃ := Option.some.inj (hwave.symm.trans hwave₃)
  subst ewv
  have esf : sf = sf₃ := by
    rw [hs₂'] at hsf₃
    exact Option.some.inj (show some sf = some sf₃ from hsf₃)
  subst esf
  have elf : lf = lf₃ := by
    rw [hs₂'] at hlf₃
    exact Option.some.inj (show some lf = some lf₃ from hlf₃)
  subst elf
  have hs₁m : s₁.mask_file = none := by rw [hs₃, hs₂']; exact h1
  have hs₁b : s₁.bin_mask_file = none := by rw [hs₃, hs₂']; exact h2
  have hs₁a : s₁.arrays = some (ds.setVar "mu" mu) := by rw [hs₃]
  have hs₁sf : s₁.storage_mod_file = some sf := by rw [hs₃, hs₂']
  have hs₁lf : s₁.loss_mod_file = some lf := by rw [hs₃, hs₂']
  have hs₁w : (ds.setVar "mu" mu).getVar "wave" = some wave := by
    rw [getVar_setVar_ne _ _ _ _ (by decide)]
    exact hwave
  rw [preprocess_eq, files_update_self s₁ sf lf hs₁sf hs₁lf,
    segment_regions_nomask mf ff s₁ (ds.setVar "mu" mu) wave hs₁m hs₁b hs₁a hs₁w]
  simp only [Option.some_bind]
  rw [create_elastogram_run nd s₁ (ds.setVar "mu" mu) wave sf lf raw mu
      hs₁a hs₁w hs₁sf hs₁lf hraw hmu,
    setVar_setVar_self, arrays_update_self s₁ (ds.setVar "mu" mu) hs₁a]

/-- Witness for C8: the concrete preprocessed sample `sP`. -/
theorem c8_witness :
    preprocess maskC maskC nib0 "storage.nii" "loss.nii" sP = some sP :=
  c8_preprocess_idempotent maskC maskC nib0 "storage.nii" "loss.nii" sL sP
    (Reachable.load st0 mdW true sL (Reachable.init "sample.mat" 30 [1, 1, 1]) rfl) rfl
